import Mathlib

/-!
Verification of the GTPv2-C information-element serializer
(`src/cp/gtpv2c_set_ie.c`) against its specification.

The message buffer is modelled at byte level. Offsets are counted from the
address of `header->teid_u`, which is exactly the base the source uses for its
cursor arithmetic (`ie = (uint8_t *) &header->teid_u + ntohs(header->gtpc.length)`).
The 16-bit running length `header->gtpc.length` is kept as a `Nat` field `len`
(its on-wire big-endian storage via `htons`/`ntohs` is a round trip the source
performs on every access).

`rte_panic` aborts the process with the buffer in its current state; we model a
panicking call as `Except.error s` where `s` is the buffer state at the moment
of the panic, and a completing call as `Except.ok`.

Multi-byte stores: fields the source passes through `htons` are serialized
big-endian unconditionally (that is the definition of `htons`); fields the
source stores as plain integer assignments (`teid_or_gre`, TFT port values)
take the byte order of the host, which is therefore an explicit `ByteOrder`
parameter of the corresponding operations.
-/

/-- Modelled from the spec: `MAX_GTPV2C_LENGTH` is defined in a header that is
not part of `src/`; the spec only requires it to bound the bytes counted by
`header.gtpc.length`. Its concrete value is irrelevant to the claims, which are
all stated relative to the bound; we fix a representative value below 2^16. -/
def MAX_GTPV2C_LENGTH : Nat := 4084

/-- `sizeof(gtpv2c_ie)`: the 4-byte IE header (1-byte type, 1-byte
spare/instance, 2-byte big-endian length). Modelled from the spec: the struct
lives in a header not under `src/`. -/
def IE_HEADER_SIZE : Nat := 4

/-- Modelled from the spec: `MAX_FILTERS_PER_UE` bounds the per-bearer packet
filter table; its concrete value is not in `src/`. -/
def MAX_FILTERS_PER_UE : Nat := 16

/-- The empty-slot sentinel `-ENOENT` used in `packet_filter_map` (`ENOENT = 2`). -/
def NO_ENTRY : Int := -2

/-- IE type codes used by the encoders under verification (3GPP TS 29.274
table 8.1-1; the enum lives in a header not under `src/`). -/
def IE_EBI : Nat := 73
def IE_BEARER_TFT : Nat := 84
def IE_FTEID : Nat := 87
def IE_BEARER_CONTEXT : Nat := 93

/-- TFT packet-filter component type codes (3GPP TS 24.008; the enum lives in
a header not under `src/`). -/
def IPV4_REMOTE_ADDRESS : Nat := 16
def IPV4_LOCAL_ADDRESS : Nat := 17
def PROTOCOL_ID_NEXT_HEADER : Nat := 48
def SINGLE_LOCAL_PORT : Nat := 64
def LOCAL_PORT_RANGE : Nat := 65
def SINGLE_REMOTE_PORT : Nat := 80
def REMOTE_PORT_RANGE : Nat := 81

/-- Byte order of the host executing the code: a plain C integer store writes
the host representation of the value into the buffer. -/
inductive ByteOrder where
  | big : ByteOrder
  | little : ByteOrder
deriving DecidableEq, Repr

/-- Bytes of a 16-bit value as a plain C `uint16_t` store lays them out. -/
def store16 : ByteOrder → Nat → List Nat
  | .big, v => [v % 65536 / 256, v % 256]
  | .little, v => [v % 256, v % 65536 / 256]

/-- Bytes of a 32-bit value as a plain C `uint32_t` store lays them out. -/
def store32 : ByteOrder → Nat → List Nat
  | .big, v => [v % 4294967296 / 16777216, v % 16777216 / 65536,
                v % 65536 / 256, v % 256]
  | .little, v => [v % 256, v % 65536 / 256,
                   v % 16777216 / 65536, v % 4294967296 / 16777216]

/-- Bytes of `htons(v)` stored into the buffer: big-endian by definition of
`htons`, independent of the host byte order. -/
def htonsBytes (v : Nat) : List Nat := [v % 65536 / 256, v % 256]

/-- The transmission buffer as the source sees it: the running 16-bit message
length `len` (value of `header->gtpc.length`, host-order view) and the bytes
at each offset from `&header->teid_u`. -/
structure gtpv2c_header where
  len : Nat
  buf : Nat → Nat

/-- Store one byte (a C `uint8_t` assignment truncates to 8 bits). -/
def writeByte (b : Nat → Nat) (i v : Nat) : Nat → Nat :=
  fun j => if j = i then v % 256 else b j

/-- Apply a list of byte writes in order (later writes win on aliasing). -/
def applyWrites (b : Nat → Nat) : List (Nat × Nat) → (Nat → Nat)
  | [] => b
  | (i, v) :: ws => applyWrites (writeByte b i v) ws

/-- Writes laying the given bytes down consecutively from offset `i`. -/
def writesAt (i : Nat) : List Nat → List (Nat × Nat)
  | [] => []
  | v :: vs => (i, v) :: writesAt (i + 1) vs

/-- `set_next_ie` (src/cp/gtpv2c_set_ie.c:41-62): compute the write position
from the running length, panic if the prospective IE (header + body) would
push the running length past `MAX_GTPV2C_LENGTH`, otherwise advance the
running length and stamp the 4-byte IE header (type, spare/instance, and the
body length via `htons`). Returns the IE's offset. -/
def set_next_ie (h : gtpv2c_header) (ty inst length : Nat) :
    Except gtpv2c_header (gtpv2c_header × Nat) :=
  let ie := h.len
  if h.len + length + IE_HEADER_SIZE > MAX_GTPV2C_LENGTH then
    .error h
  else
    .ok ({ len := (h.len + length + IE_HEADER_SIZE) % 65536,
           buf := applyWrites h.buf
             ((ie, ty) :: (ie + 1, inst % 16) :: writesAt (ie + 2) (htonsBytes length)) },
         ie)

/-- `set_next_unsized_ie` (src/cp/gtpv2c_set_ie.c:77-89): compute the write
position from the running length and stamp only the type and spare/instance
bytes; the length field stays untouched and the running length does not move. -/
def set_next_unsized_ie (h : gtpv2c_header) (ty inst : Nat) :
    gtpv2c_header × Nat :=
  let ie := h.len
  ({ h with buf := applyWrites h.buf [(ie, ty), (ie + 1, inst % 16)] }, ie)

/-- `set_ie_size` (src/cp/gtpv2c_set_ie.c:102-112): panic if the now-known IE
size would push the running length past `MAX_GTPV2C_LENGTH`; otherwise stamp
the IE's length field (via `htons`) and advance the running length. -/
def set_ie_size (h : gtpv2c_header) (ie length : Nat) :
    Except gtpv2c_header gtpv2c_header :=
  if h.len + length + IE_HEADER_SIZE > MAX_GTPV2C_LENGTH then
    .error h
  else
    .ok { len := (h.len + length + IE_HEADER_SIZE) % 65536,
          buf := applyWrites h.buf (writesAt (ie + 2) (htonsBytes length)) }

/-- `get_ie_return` (src/cp/gtpv2c_set_ie.c:122-126): `sizeof(gtpv2c_ie) +
ntohs(ie->length)`, reading the stamped big-endian length field back from the
buffer. -/
def get_ie_return (h : gtpv2c_header) (ie : Nat) : Nat :=
  IE_HEADER_SIZE + (h.buf (ie + 2) * 256 + h.buf (ie + 3))

/-- `set_uint8_ie` (src/cp/gtpv2c_set_ie.c:141-151): a fixed-size IE with a
one-byte body. -/
def set_uint8_ie (h : gtpv2c_header) (ty inst value : Nat) :
    Except gtpv2c_header (gtpv2c_header × Nat) :=
  match set_next_ie h ty inst 1 with
  | .error e => .error e
  | .ok (h1, ie) =>
      let h2 : gtpv2c_header :=
        { h1 with buf := writeByte h1.buf (ie + IE_HEADER_SIZE) value }
      .ok (h2, get_ie_return h2 ie)

/-- `set_ebi_ie` (src/cp/gtpv2c_set_ie.c:239-245): logs a warning when the EBI
uses its upper nibble (`ebi & 0xF0`), then encodes the byte as given through
`set_uint8_ie` regardless. The Bool records whether the warning fired. -/
def set_ebi_ie (h : gtpv2c_header) (inst ebi : Nat) :
    Bool × Except gtpv2c_header (gtpv2c_header × Nat) :=
  (ebi % 256 &&& 0xF0 != 0, set_uint8_ie h IE_EBI inst ebi)

/-- `set_ipv4_fteid_ie` (src/cp/gtpv2c_set_ie.c:194-211): 9-byte body: one
flag byte (V4 set, V6 clear, 6-bit interface type), the 32-bit
`teid_or_gre` stored by plain assignment (host byte order — the source applies
no `htonl`), then the 4-byte `in_addr` copied as stored by the caller. -/
def set_ipv4_fteid_ie (bo : ByteOrder) (h : gtpv2c_header)
    (interface inst ipv4 teid : Nat) :
    Except gtpv2c_header (gtpv2c_header × Nat) :=
  match set_next_ie h IE_FTEID inst 9 with
  | .error e => .error e
  | .ok (h1, ie) =>
      let ws := (ie + 4, 128 + interface % 64) ::
        (writesAt (ie + 5) (store32 bo teid) ++ writesAt (ie + 9) (store32 bo ipv4))
      let h2 : gtpv2c_header := { h1 with buf := applyWrites h1.buf ws }
      .ok (h2, get_ie_return h2 ie)

/-- `add_grouped_ie_length` (src/cp/gtpv2c_set_ie.c:412-416):
`group_ie->length = htons(ntohs(group_ie->length) + grouped_ie_length)`,
re-stamping the parent IE's big-endian length field in place. -/
def add_grouped_ie_length (h : gtpv2c_header) (ie grouped_ie_length : Nat) :
    gtpv2c_header :=
  let cur := h.buf (ie + 2) * 256 + h.buf (ie + 3)
  let ws := writesAt (ie + 2) (htonsBytes (cur + grouped_ie_length))
  { h with buf := applyWrites h.buf ws }

/-- `create_bearer_context_ie` (src/cp/gtpv2c_set_ie.c:419-424): a grouped IE
opened through the fixed-size writer with body length 0. -/
def create_bearer_context_ie (h : gtpv2c_header) (inst : Nat) :
    Except gtpv2c_header (gtpv2c_header × Nat) :=
  set_next_ie h IE_BEARER_CONTEXT inst 0

/-- The packet-filter record returned by the external store
(`get_packet_filter`); only the fields `set_bearer_tft_ie` reads. Modelled
from the spec: the struct lives in `packet_filters.h`, not under `src/`. -/
structure packet_filter where
  direction : Nat
  precedence : Nat
  remote_ip_addr : Nat
  remote_ip_mask : Nat
  local_ip_addr : Nat
  local_ip_mask : Nat
  proto : Nat
  proto_mask : Nat
  remote_port_low : Nat
  remote_port_high : Nat
  local_port_low : Nat
  local_port_high : Nat
deriving DecidableEq, Repr

/-- The per-bearer state `set_bearer_tft_ie` reads: the sparse filter table
(`int packet_filter_map[MAX_FILTERS_PER_UE]`, `NO_ENTRY` marking an empty
slot), modelled as the array's lookup function. -/
structure eps_bearer where
  packet_filter_map : Nat → Int

/-- `UINT32_MAX >> (32 - mask)`: the mask value the source stores. -/
def ipv4MaskValue (mask : Nat) : Nat := 4294967295 >>> (32 - mask)

/-- The sequence of TFT filter components `set_bearer_tft_ie`
(src/cp/gtpv2c_set_ie.c:308-388) emits for one resolved packet filter, as
(component type, payload bytes) pairs, in the source's fixed order: remote
IPv4, local IPv4, protocol, remote port (single if `low == high`, a range
unless the range is the full `0..UINT16_MAX` span, else nothing), local port
(same rule). Ports are stored by plain assignment (host byte order — the
source applies no `htons`). -/
def pf_components (bo : ByteOrder) (pf : packet_filter) : List (Nat × List Nat) :=
  (if pf.remote_ip_mask ≠ 0 then
    [(IPV4_REMOTE_ADDRESS,
      store32 bo pf.remote_ip_addr ++ store32 bo (ipv4MaskValue pf.remote_ip_mask))]
   else []) ++
  (if pf.local_ip_mask ≠ 0 then
    [(IPV4_LOCAL_ADDRESS,
      store32 bo pf.local_ip_addr ++ store32 bo (ipv4MaskValue pf.local_ip_mask))]
   else []) ++
  (if pf.proto_mask ≠ 0 then
    [(PROTOCOL_ID_NEXT_HEADER, [pf.proto % 256])]
   else []) ++
  (if pf.remote_port_low = pf.remote_port_high then
    [(SINGLE_REMOTE_PORT, store16 bo pf.remote_port_low)]
   else if pf.remote_port_low ≠ 0 ∨ pf.remote_port_high ≠ 65535 then
    [(REMOTE_PORT_RANGE, store16 bo pf.remote_port_low ++ store16 bo pf.remote_port_high)]
   else []) ++
  (if pf.local_port_low = pf.local_port_high then
    [(SINGLE_LOCAL_PORT, store16 bo pf.local_port_low)]
   else if pf.local_port_low ≠ 0 ∨ pf.local_port_high ≠ 65535 then
    [(LOCAL_PORT_RANGE, store16 bo pf.local_port_low ++ store16 bo pf.local_port_high)]
   else [])

/-- Total byte size of a component list: each component occupies its 1-byte
type tag plus its payload — exactly what the source accumulates into
`cpf->pkt_filter_length` via the `sizeof(component->type_union.X)` terms. -/
def componentsLength (comps : List (Nat × List Nat)) : Nat :=
  (comps.map (fun c => 1 + c.2.length)).sum

/-- Flat bytes of a component list as laid out in the buffer. -/
def componentsBytes (comps : List (Nat × List Nat)) : List Nat :=
  (comps.map (fun c => c.1 :: c.2)).flatten

/-- The byte writes for one resolved filter's sub-record at offset `pos`
(src/cp/gtpv2c_set_ie.c:300-391): the 3-byte `create_pkt_filter` header
(4-bit filter id = slot index packed with the 2-bit direction; precedence;
the accumulated component length) followed by the components. -/
def filterWrites (bo : ByteOrder) (i pos : Nat) (pf : packet_filter) :
    List (Nat × Nat) :=
  (pos, i % 16 + 16 * (pf.direction % 4)) ::
  (pos + 1, pf.precedence) ::
  (pos + 2, componentsLength (pf_components bo pf)) ::
  writesAt (pos + 3) (componentsBytes (pf_components bo pf))

/-- Loop state of `set_bearer_tft_ie`'s slot walk: the in-buffer filter count
`num_pkt_filters`, the `cpf` write cursor, the accumulated `ie_length`, and
the byte writes performed so far. -/
structure TftState where
  num : Nat
  pos : Nat
  ie_len : Nat
  ws : List (Nat × Nat)
deriving Repr

/-- One slot of the `set_bearer_tft_ie` loop (src/cp/gtpv2c_set_ie.c:291-392):
skip the `-ENOENT` sentinel; otherwise increment `num_pkt_filters` first, then
consult the external store — a failed lookup leaves everything else untouched
(the increment is not reverted); a resolved filter appends its sub-record and
advances the cursor and `ie_length` by `sizeof(create_pkt_filter) +
pkt_filter_length`. -/
def tftStep (bo : ByteOrder) (lookup : Int → Option packet_filter)
    (map : Nat → Int) (st : TftState) (i : Nat) : TftState :=
  if map i = NO_ENTRY then st
  else
    match lookup (map i) with
    | none => { st with num := st.num + 1 }
    | some pf =>
        let clen := componentsLength (pf_components bo pf)
        { num := st.num + 1,
          pos := st.pos + 3 + clen,
          ie_len := st.ie_len + clen + 3,
          ws := st.ws ++ filterWrites bo i st.pos pf }

/-- The full slot walk over `0 ≤ i < MAX_FILTERS_PER_UE`, starting with an
empty sub-record area at offset `start` (the byte after the 1-byte TFT
sub-header). -/
def tftRun (bo : ByteOrder) (lookup : Int → Option packet_filter)
    (map : Nat → Int) (start : Nat) : TftState :=
  (List.range MAX_FILTERS_PER_UE).foldl (tftStep bo lookup map)
    { num := 0, pos := start, ie_len := 0, ws := [] }

/-- The buffer state after `set_bearer_tft_ie` has produced its entire
variable body but before `set_ie_size` runs its capacity check: the unsized IE
header bytes, the 1-byte TFT sub-header (op code `TFT_OP_CREATE_NEW = 1` in
bits 8-6, final `num_pkt_filters` in bits 4-1), and every filter sub-record.
This is the state the process is left in if the close-time check panics. -/
def tft_mutated (bo : ByteOrder) (h : gtpv2c_header) (inst : Nat)
    (bearer : eps_bearer) (lookup : Int → Option packet_filter) : gtpv2c_header :=
  let opened := set_next_unsized_ie h IE_BEARER_TFT inst
  let st := tftRun bo lookup bearer.packet_filter_map (h.len + 5)
  let ws := (h.len + 4, 32 + st.num % 16) :: st.ws
  { opened.1 with buf := applyWrites opened.1.buf ws }

/-- `set_bearer_tft_ie` (src/cp/gtpv2c_set_ie.c:277-396): open an unsized IE,
write the TFT sub-header and all filter sub-records with no capacity check,
then close via `set_ie_size` with body length `sizeof(bearer_tft_ie) +
ie_length` — the only point at which an overflow can be detected. -/
def set_bearer_tft_ie (bo : ByteOrder) (h : gtpv2c_header) (inst : Nat)
    (bearer : eps_bearer) (lookup : Int → Option packet_filter) :
    Except gtpv2c_header (gtpv2c_header × Nat) :=
  let ie := h.len
  let st := tftRun bo lookup bearer.packet_filter_map (h.len + 5)
  let h1 := tft_mutated bo h inst bearer lookup
  match set_ie_size h1 ie (1 + st.ie_len) with
  | .error e => .error e
  | .ok h2 => .ok (h2, get_ie_return h2 ie)

/-- One completed IE-writing operation, as the length invariant sees it:
either a fixed-size write through `set_next_ie` or an open/close pair through
`set_next_unsized_ie` and `set_ie_size` closing with the given body length. -/
inductive IEOp where
  | fixed (ty inst bodyLen : Nat) : IEOp
  | unsized (ty inst bodyLen : Nat) : IEOp
deriving DecidableEq, Repr

/-- Run one operation against the buffer. -/
def runOp (h : gtpv2c_header) : IEOp → Except gtpv2c_header gtpv2c_header
  | .fixed ty inst n =>
      match set_next_ie h ty inst n with
      | .error e => .error e
      | .ok (h1, _) => .ok h1
  | .unsized ty inst n =>
      let opened := set_next_unsized_ie h ty inst
      set_ie_size opened.1 opened.2 n

/-- Run a sequence of operations, stopping at the first overflow panic. -/
def runOps (h : gtpv2c_header) : List IEOp → Except gtpv2c_header gtpv2c_header
  | [] => .ok h
  | op :: ops =>
      match runOp h op with
      | .error e => .error e
      | .ok h1 => runOps h1 ops

/-- Byte count of the IE record an operation appends: IE header plus body. -/
def opBytes : IEOp → Nat
  | .fixed _ _ n => IE_HEADER_SIZE + n
  | .unsized _ _ n => IE_HEADER_SIZE + n

/-- The 16-bit value of an IE's length field as stored in the buffer,
interpreted big-endian as `ntohs` does. -/
def ieLengthField (h : gtpv2c_header) (ie : Nat) : Nat :=
  h.buf (ie + 2) * 256 + h.buf (ie + 3)

/-- Big-endian reading of two buffer bytes. -/
def readBE16 (h : gtpv2c_header) (i : Nat) : Nat :=
  h.buf i * 256 + h.buf (i + 1)

/-- Big-endian reading of four buffer bytes. -/
def readBE32 (h : gtpv2c_header) (i : Nat) : Nat :=
  ((h.buf i * 256 + h.buf (i + 1)) * 256 + h.buf (i + 2)) * 256 + h.buf (i + 3)

/-- Little-endian reading of four buffer bytes. -/
def readLE32 (h : gtpv2c_header) (i : Nat) : Nat :=
  ((h.buf (i + 3) * 256 + h.buf (i + 2)) * 256 + h.buf (i + 1)) * 256 + h.buf i

/-- Extract the payload of a completing call (the error branch is never taken
when this is used on a call that is proved to complete). -/
def okState : Except gtpv2c_header (gtpv2c_header × Nat) → gtpv2c_header × Nat
  | .ok p => p
  | .error e => (e, 0)

/-- Extract the final buffer of a completing operation sequence. -/
def okRun : Except gtpv2c_header gtpv2c_header → gtpv2c_header
  | .ok h => h
  | .error e => e

/-- Whether a call completed (did not hit the `rte_panic` overflow abort). -/
def completes {α : Type} : Except gtpv2c_header α → Bool
  | .ok _ => true
  | .error _ => false

/-! ### Generic facts about the write-list buffer model -/

theorem applyWrites_append (b : Nat → Nat) (ws1 ws2 : List (Nat × Nat)) :
    applyWrites b (ws1 ++ ws2) = applyWrites (applyWrites b ws1) ws2 := by
  induction ws1 generalizing b with
  | nil => rfl
  | cons p t ih => cases p; simp [applyWrites, ih]

theorem applyWrites_not_mem (b : Nat → Nat) (ws : List (Nat × Nat)) (j : Nat)
    (hj : j ∉ ws.map Prod.fst) : applyWrites b ws j = b j := by
  induction ws generalizing b with
  | nil => rfl
  | cons p t ih =>
      cases p with
      | mk i v =>
          simp only [List.map_cons, List.mem_cons] at hj
          push_neg at hj
          simp only [applyWrites]
          rw [ih _ hj.2]
          simp [writeByte, hj.1]

theorem applyWrites_cons_self (b : Nat → Nat) (ws : List (Nat × Nat)) (j v : Nat)
    (hj : j ∉ ws.map Prod.fst) :
    applyWrites b ((j, v) :: ws) j = v % 256 := by
  simp only [applyWrites]
  rw [applyWrites_not_mem _ _ _ hj]
  simp [writeByte]

theorem applyWrites_base_eq (b1 b2 : Nat → Nat) (ws : List (Nat × Nat)) (o : Nat)
    (hb : b1 o = b2 o) : applyWrites b1 ws o = applyWrites b2 ws o := by
  induction ws generalizing b1 b2 with
  | nil => exact hb
  | cons p t ih =>
      cases p with
      | mk i v =>
          simp only [applyWrites]
          apply ih
          simp only [writeByte]
          split_ifs <;> simp [hb]

theorem applyWrites_cons_ne (b : Nat → Nat) (i v o : Nat) (ws : List (Nat × Nat))
    (ho : o ≠ i) :
    applyWrites b ((i, v) :: ws) o = applyWrites b ws o := by
  simp only [applyWrites]
  exact applyWrites_base_eq _ _ _ _ (by simp [writeByte, ho])

theorem writesAt_map_fst (l : List Nat) (i : Nat) :
    (writesAt i l).map Prod.fst = List.range' i l.length := by
  induction l generalizing i with
  | nil => rfl
  | cons v t ih => simp [writesAt, List.range'_succ, ih]

theorem applyWrites_writesAt_read (b : Nat → Nat) (i : Nat) (l : List Nat)
    (k : Nat) (hk : k < l.length) :
    applyWrites b (writesAt i l) (i + k) = l.getD k 0 % 256 := by
  induction l generalizing b i k with
  | nil => simp at hk
  | cons v t ih =>
      cases k with
      | zero =>
          simp only [writesAt, applyWrites, Nat.add_zero]
          rw [applyWrites_not_mem _ _ _ (by
            rw [writesAt_map_fst]
            simp only [List.mem_range'_1]
            omega)]
          simp [writeByte]
      | succ k' =>
          simp only [writesAt, applyWrites]
          have harith : i + (k' + 1) = (i + 1) + k' := by omega
          rw [harith, ih _ _ _ (by simpa using hk)]
          simp [List.getD]

theorem store32_length (bo : ByteOrder) (v : Nat) : (store32 bo v).length = 4 := by
  cases bo <;> rfl

theorem store16_length (bo : ByteOrder) (v : Nat) : (store16 bo v).length = 2 := by
  cases bo <;> rfl

/-! ### Structure of the TFT body writes -/

theorem componentsBytes_length (comps : List (Nat × List Nat)) :
    (componentsBytes comps).length = componentsLength comps := by
  induction comps with
  | nil => rfl
  | cons c t ih =>
      simp only [componentsBytes, componentsLength, List.map_cons,
        List.flatten_cons, List.length_append, List.length_cons, List.sum_cons] at ih ⊢
      omega

theorem filterWrites_fst_mem (bo : ByteOrder) (i pos : Nat) (pf : packet_filter)
    (o : Nat) :
    o ∈ (filterWrites bo i pos pf).map Prod.fst ↔
      pos ≤ o ∧ o < pos + 3 + componentsLength (pf_components bo pf) := by
  simp only [filterWrites, List.map_cons, List.mem_cons, writesAt_map_fst,
    componentsBytes_length, List.mem_range'_1]
  omega

theorem tftSteps_inv (bo : ByteOrder) (lookup : Int → Option packet_filter)
    (map : Nat → Int) (l : List Nat) (start : Nat) (st : TftState)
    (hpos : st.pos = start + st.ie_len)
    (hmem : ∀ o, o ∈ st.ws.map Prod.fst ↔ start ≤ o ∧ o < start + st.ie_len) :
    (l.foldl (tftStep bo lookup map) st).pos =
      start + (l.foldl (tftStep bo lookup map) st).ie_len ∧
    ∀ o, o ∈ (l.foldl (tftStep bo lookup map) st).ws.map Prod.fst ↔
      start ≤ o ∧ o < start + (l.foldl (tftStep bo lookup map) st).ie_len := by
  induction l generalizing st with
  | nil => exact ⟨hpos, hmem⟩
  | cons i t ih =>
      simp only [List.foldl_cons]
      apply ih
      · unfold tftStep
        split_ifs with hni
        · exact hpos
        · cases hl : lookup (map i) with
          | none => simpa using hpos
          | some pf =>
              simp only []
              omega
      · unfold tftStep
        split_ifs with hni
        · exact hmem
        · cases hl : lookup (map i) with
          | none => simpa using hmem
          | some pf =>
              intro o
              simp only [List.map_append, List.mem_append, hmem o,
                filterWrites_fst_mem, hpos]
              omega

theorem tftRun_inv (bo : ByteOrder) (lookup : Int → Option packet_filter)
    (map : Nat → Int) (start : Nat) :
    (tftRun bo lookup map start).pos = start + (tftRun bo lookup map start).ie_len ∧
    ∀ o, o ∈ (tftRun bo lookup map start).ws.map Prod.fst ↔
      start ≤ o ∧ o < start + (tftRun bo lookup map start).ie_len := by
  apply tftSteps_inv
  · simp
  · intro o
    simp only [List.map_nil, List.not_mem_nil, false_iff]
    omega

/-! ### Claim C1: the running-length invariant -/

theorem runOp_ok_len (h h1 : gtpv2c_header) (op : IEOp)
    (hok : runOp h op = .ok h1) : h1.len = h.len + opBytes op := by
  cases op with
  | fixed ty inst n =>
      simp only [runOp, set_next_ie] at hok
      by_cases hc : h.len + n + IE_HEADER_SIZE > MAX_GTPV2C_LENGTH
      · rw [if_pos hc] at hok
        simp at hok
      · rw [if_neg hc] at hok
        simp only [Except.ok.injEq] at hok
        subst hok
        simp only [opBytes, MAX_GTPV2C_LENGTH, IE_HEADER_SIZE] at hc ⊢
        omega
  | unsized ty inst n =>
      simp only [runOp, set_next_unsized_ie, set_ie_size] at hok
      by_cases hc : h.len + n + IE_HEADER_SIZE > MAX_GTPV2C_LENGTH
      · rw [if_pos hc] at hok
        simp at hok
      · rw [if_neg hc] at hok
        simp only [Except.ok.injEq] at hok
        subst hok
        simp only [opBytes, MAX_GTPV2C_LENGTH, IE_HEADER_SIZE] at hc ⊢
        omega

/-- C1. For every sequence of IE-writing operations (fixed-size writes via
`set_next_ie` and open/close pairs via `set_next_unsized_ie` + `set_ie_size`)
that completes without an overflow panic, the final value of the header's
running length field exceeds its initial value by exactly the byte count of
all IE records (IE headers plus bodies) written by the sequence; the initial
value is the pre-populated length of the fixed GTPv2-C header prefix. -/
theorem gtp_length_invariant (h : gtpv2c_header) (ops : List IEOp)
    (h' : gtpv2c_header) (hok : runOps h ops = .ok h') :
    h'.len = h.len + (ops.map opBytes).sum := by
  induction ops generalizing h with
  | nil =>
      simp only [runOps, Except.ok.injEq] at hok
      subst hok; simp
  | cons op ops ih =>
      simp only [runOps] at hok
      split at hok
      · exact absurd hok (by simp)
      · next h1 hop =>
          have := runOp_ok_len h h1 op hop
          have := ih h1 hok
          simp only [List.map_cons, List.sum_cons]
          omega

/-- C1 witness: a concrete two-operation sequence (one fixed-size IE with a
5-byte body, one open/close IE with a 7-byte body) starting from a header
prefix of 8 bytes ends with the running length 8 + 9 + 11 = 28. -/
theorem gtp_length_invariant_witness :
    (okRun (runOps ⟨8, fun _ => 0⟩ [IEOp.fixed 1 0 5, IEOp.unsized 2 0 7])).len = 28 := by
  have h := gtp_length_invariant ⟨8, fun _ => 0⟩
      [IEOp.fixed 1 0 5, IEOp.unsized 2 0 7]
      (okRun (runOps ⟨8, fun _ => 0⟩ [IEOp.fixed 1 0 5, IEOp.unsized 2 0 7])) rfl
  simpa [opBytes, IE_HEADER_SIZE] using h

/-! ### Claim C2: the capacity boundary -/

/-- C2. For a fixed-size IE write (`set_next_ie`) and for the close of a
deferred-size IE (`set_ie_size`): when the prospective write (IE header plus
body) would exceed `MAX_GTPV2C_LENGTH` by exactly one byte, the call panics
with the buffer and the running length unchanged (the error state is the input
state: the capacity check precedes every store); when the prospective write
lands exactly on `MAX_GTPV2C_LENGTH`, the call completes. -/
theorem capacity_boundary (h : gtpv2c_header) (ty inst ie n : Nat) :
    (h.len + IE_HEADER_SIZE + n = MAX_GTPV2C_LENGTH + 1 →
      set_next_ie h ty inst n = .error h ∧ set_ie_size h ie n = .error h) ∧
    (h.len + IE_HEADER_SIZE + n = MAX_GTPV2C_LENGTH →
      completes (set_next_ie h ty inst n) = true ∧
      completes (set_ie_size h ie n) = true) := by
  constructor
  · intro he
    constructor
    · simp only [set_next_ie]
      rw [if_pos (by simp only [MAX_GTPV2C_LENGTH, IE_HEADER_SIZE] at he ⊢; omega)]
    · simp only [set_ie_size]
      rw [if_pos (by simp only [MAX_GTPV2C_LENGTH, IE_HEADER_SIZE] at he ⊢; omega)]
  · intro he
    constructor
    · simp only [set_next_ie]
      rw [if_neg (by simp only [MAX_GTPV2C_LENGTH, IE_HEADER_SIZE] at he ⊢; omega)]
      rfl
    · simp only [set_ie_size]
      rw [if_neg (by simp only [MAX_GTPV2C_LENGTH, IE_HEADER_SIZE] at he ⊢; omega)]
      rfl

/-- C2 witness: with a running length of 4000, a 81-byte body overshoots
`MAX_GTPV2C_LENGTH = 4084` by exactly one byte and panics leaving the state
untouched, while an 80-byte body lands exactly on the limit and completes. -/
theorem capacity_boundary_witness :
    set_next_ie ⟨4000, fun _ => 0⟩ 1 0 81 = .error ⟨4000, fun _ => 0⟩ ∧
    set_ie_size ⟨4000, fun _ => 0⟩ 9 81 = .error ⟨4000, fun _ => 0⟩ ∧
    completes (set_next_ie ⟨4000, fun _ => 0⟩ 1 0 80) = true ∧
    completes (set_ie_size ⟨4000, fun _ => 0⟩ 9 80) = true := by
  refine ⟨?_, ?_, ?_, ?_⟩
  · exact ((capacity_boundary ⟨4000, fun _ => 0⟩ 1 0 9 81).1 (by decide)).1
  · exact ((capacity_boundary ⟨4000, fun _ => 0⟩ 1 0 9 81).1 (by decide)).2
  · exact ((capacity_boundary ⟨4000, fun _ => 0⟩ 1 0 9 80).2 (by decide)).1
  · exact ((capacity_boundary ⟨4000, fun _ => 0⟩ 1 0 9 80).2 (by decide)).2

/-! ### Claim C4: the count-before-lookup quirk -/

/-- C4. A non-empty packet-filter slot whose stored index fails to resolve via
the external store leaves the loop state unchanged except for
`num_pkt_filters`, which was already incremented before the lookup: no filter
sub-record bytes are appended, the cursor and `ie_length` do not move, and the
walk continues (the step yields a state, not an abort). -/
theorem tft_lookup_miss_counts_slot (bo : ByteOrder)
    (lookup : Int → Option packet_filter) (map : Nat → Int) (st : TftState)
    (i : Nat) (hne : map i ≠ NO_ENTRY) (hmiss : lookup (map i) = none) :
    tftStep bo lookup map st i = { st with num := st.num + 1 } := by
  simp only [tftStep]
  rw [if_neg hne, hmiss]

/-- C4 witness: slot 2 holds index 7, the store has no filter 7; the step
increments the count and changes nothing else. -/
theorem tft_lookup_miss_counts_slot_witness :
    tftStep ByteOrder.big (fun _ => none) (fun _ => 7)
        { num := 1, pos := 20, ie_len := 6, ws := [] } 2 =
      { num := 2, pos := 20, ie_len := 6, ws := [] } := by
  exact tft_lookup_miss_counts_slot ByteOrder.big (fun _ => none) (fun _ => 7)
    { num := 1, pos := 20, ie_len := 6, ws := [] } 2 (by decide) rfl

/-! ### Claim C7: the frame effect of opening an unsized IE -/

/-- C7. `set_next_unsized_ie` returns the current write position (the running
length), stamps only the type byte and the spare/instance byte there, leaves
the running length field untouched, and changes no other byte of the buffer —
in particular the IE's 2-byte length field at offsets +2/+3 is left unset. -/
theorem unsized_ie_frame_effect (h : gtpv2c_header) (ty inst : Nat) :
    (set_next_unsized_ie h ty inst).2 = h.len ∧
    (set_next_unsized_ie h ty inst).1.len = h.len ∧
    (set_next_unsized_ie h ty inst).1.buf h.len = ty % 256 ∧
    (set_next_unsized_ie h ty inst).1.buf (h.len + 1) = inst % 16 ∧
    (∀ o : Nat, o ≠ h.len → o ≠ h.len + 1 →
      (set_next_unsized_ie h ty inst).1.buf o = h.buf o) := by
  refine ⟨rfl, rfl, ?_, ?_, ?_⟩
  · simp only [set_next_unsized_ie, applyWrites, writeByte]
    split_ifs <;> omega
  · simp only [set_next_unsized_ie, applyWrites, writeByte]
    split_ifs <;> omega
  · intro o ho1 ho2
    simp only [set_next_unsized_ie, applyWrites, writeByte]
    split_ifs <;> omega

/-- C7 witness: opening a Bearer-TFT IE on a zeroed buffer with running length
8 stamps bytes 8 and 9 only; the length field bytes 10 and 11 and the running
length stay 0 and 8. -/
theorem unsized_ie_frame_effect_witness :
    (set_next_unsized_ie ⟨8, fun _ => 0⟩ 84 1).2 = 8 ∧
    (set_next_unsized_ie ⟨8, fun _ => 0⟩ 84 1).1.len = 8 ∧
    (set_next_unsized_ie ⟨8, fun _ => 0⟩ 84 1).1.buf 8 = 84 ∧
    (set_next_unsized_ie ⟨8, fun _ => 0⟩ 84 1).1.buf 9 = 1 ∧
    (set_next_unsized_ie ⟨8, fun _ => 0⟩ 84 1).1.buf 10 = 0 ∧
    (set_next_unsized_ie ⟨8, fun _ => 0⟩ 84 1).1.buf 11 = 0 := by
  have h := unsized_ie_frame_effect ⟨8, fun _ => 0⟩ 84 1
  exact ⟨h.1, h.2.1, h.2.2.1, h.2.2.2.1,
    h.2.2.2.2 10 (by decide) (by decide), h.2.2.2.2 11 (by decide) (by decide)⟩

/-! ### Claim C9: the EBI anomaly -/

/-- C9. Encoding an EBI whose upper nibble is set raises the anomaly signal
(the logged warning), still completes provided the 1-byte IE fits, writes the
IE body byte equal to the value given (as an 8-bit store), and returns the
usual 5-byte record size — the anomaly never interrupts the encode. -/
theorem ebi_anomaly (h : gtpv2c_header) (inst ebi : Nat)
    (hcap : h.len + IE_HEADER_SIZE + 1 ≤ MAX_GTPV2C_LENGTH)
    (hup : ebi % 256 &&& 240 ≠ 0) :
    (set_ebi_ie h inst ebi).1 = true ∧
    completes (set_ebi_ie h inst ebi).2 = true ∧
    (okState (set_ebi_ie h inst ebi).2).1.buf (h.len + IE_HEADER_SIZE) = ebi % 256 ∧
    (okState (set_ebi_ie h inst ebi).2).2 = 5 := by
  have hcond : ¬ (h.len + 1 + IE_HEADER_SIZE > MAX_GTPV2C_LENGTH) := by omega
  refine ⟨by simpa [set_ebi_ie] using hup, ?_, ?_, ?_⟩
  · simp only [set_ebi_ie, set_uint8_ie, set_next_ie]
    rw [if_neg hcond]
    rfl
  · simp only [set_ebi_ie, set_uint8_ie, set_next_ie]
    rw [if_neg hcond]
    simp only [okState, writeByte, IE_HEADER_SIZE]
    split_ifs <;> omega
  · simp only [set_ebi_ie, set_uint8_ie, set_next_ie]
    rw [if_neg hcond]
    simp only [okState, get_ie_return, writeByte, IE_HEADER_SIZE,
      applyWrites, writesAt, htonsBytes]
    split_ifs <;> omega

/-! ### Claim C3: TFT port-component selection -/

/-- C3. For every packet filter the Bearer-TFT encoder emits, for the remote
port: exactly one single-port component and no range component when
`remote_port_low = remote_port_high` (including both zero); no remote-port
component at all when the range is exactly `0..65535`; otherwise exactly one
remote-port-range component. The same rule holds for the local port. -/
theorem tft_port_component_selection (bo : ByteOrder) (pf : packet_filter) :
    (pf.remote_port_low = pf.remote_port_high →
      (pf_components bo pf).countP (fun c => c.1 == SINGLE_REMOTE_PORT) = 1 ∧
      (pf_components bo pf).countP (fun c => c.1 == REMOTE_PORT_RANGE) = 0) ∧
    (pf.remote_port_low = 0 → pf.remote_port_high = 65535 →
      (pf_components bo pf).countP (fun c => c.1 == SINGLE_REMOTE_PORT) = 0 ∧
      (pf_components bo pf).countP (fun c => c.1 == REMOTE_PORT_RANGE) = 0) ∧
    (pf.remote_port_low ≠ pf.remote_port_high →
      (pf.remote_port_low ≠ 0 ∨ pf.remote_port_high ≠ 65535) →
      (pf_components bo pf).countP (fun c => c.1 == SINGLE_REMOTE_PORT) = 0 ∧
      (pf_components bo pf).countP (fun c => c.1 == REMOTE_PORT_RANGE) = 1) ∧
    (pf.local_port_low = pf.local_port_high →
      (pf_components bo pf).countP (fun c => c.1 == SINGLE_LOCAL_PORT) = 1 ∧
      (pf_components bo pf).countP (fun c => c.1 == LOCAL_PORT_RANGE) = 0) ∧
    (pf.local_port_low = 0 → pf.local_port_high = 65535 →
      (pf_components bo pf).countP (fun c => c.1 == SINGLE_LOCAL_PORT) = 0 ∧
      (pf_components bo pf).countP (fun c => c.1 == LOCAL_PORT_RANGE) = 0) ∧
    (pf.local_port_low ≠ pf.local_port_high →
      (pf.local_port_low ≠ 0 ∨ pf.local_port_high ≠ 65535) →
      (pf_components bo pf).countP (fun c => c.1 == SINGLE_LOCAL_PORT) = 0 ∧
      (pf_components bo pf).countP (fun c => c.1 == LOCAL_PORT_RANGE) = 1) := by
  refine ⟨?_, ?_, ?_, ?_, ?_, ?_⟩
  · intro hEq
    unfold pf_components
    rw [if_pos hEq]
    split_ifs <;> simp [List.countP_append, List.countP_cons,
      SINGLE_REMOTE_PORT, REMOTE_PORT_RANGE, SINGLE_LOCAL_PORT, LOCAL_PORT_RANGE,
      IPV4_REMOTE_ADDRESS, IPV4_LOCAL_ADDRESS, PROTOCOL_ID_NEXT_HEADER]
  · intro h0 h65
    unfold pf_components
    rw [if_neg (by omega : ¬ (pf.remote_port_low = pf.remote_port_high)),
      if_neg (by omega : ¬ (pf.remote_port_low ≠ 0 ∨ pf.remote_port_high ≠ 65535))]
    split_ifs <;> simp [List.countP_append, List.countP_cons,
      SINGLE_REMOTE_PORT, REMOTE_PORT_RANGE, SINGLE_LOCAL_PORT, LOCAL_PORT_RANGE,
      IPV4_REMOTE_ADDRESS, IPV4_LOCAL_ADDRESS, PROTOCOL_ID_NEXT_HEADER]
  · intro hne hfull
    unfold pf_components
    rw [if_neg hne, if_pos hfull]
    split_ifs <;> simp [List.countP_append, List.countP_cons,
      SINGLE_REMOTE_PORT, REMOTE_PORT_RANGE, SINGLE_LOCAL_PORT, LOCAL_PORT_RANGE,
      IPV4_REMOTE_ADDRESS, IPV4_LOCAL_ADDRESS, PROTOCOL_ID_NEXT_HEADER]
  · intro hEq
    unfold pf_components
    rw [if_pos hEq]
    split_ifs <;> simp [List.countP_append, List.countP_cons,
      SINGLE_REMOTE_PORT, REMOTE_PORT_RANGE, SINGLE_LOCAL_PORT, LOCAL_PORT_RANGE,
      IPV4_REMOTE_ADDRESS, IPV4_LOCAL_ADDRESS, PROTOCOL_ID_NEXT_HEADER]
  · intro h0 h65
    unfold pf_components
    rw [if_neg (by omega : ¬ (pf.local_port_low = pf.local_port_high)),
      if_neg (by omega : ¬ (pf.local_port_low ≠ 0 ∨ pf.local_port_high ≠ 65535))]
    split_ifs <;> simp [List.countP_append, List.countP_cons,
      SINGLE_REMOTE_PORT, REMOTE_PORT_RANGE, SINGLE_LOCAL_PORT, LOCAL_PORT_RANGE,
      IPV4_REMOTE_ADDRESS, IPV4_LOCAL_ADDRESS, PROTOCOL_ID_NEXT_HEADER]
  · intro hne hfull
    unfold pf_components
    rw [if_neg hne, if_pos hfull]
    split_ifs <;> simp [List.countP_append, List.countP_cons,
      SINGLE_REMOTE_PORT, REMOTE_PORT_RANGE, SINGLE_LOCAL_PORT, LOCAL_PORT_RANGE,
      IPV4_REMOTE_ADDRESS, IPV4_LOCAL_ADDRESS, PROTOCOL_ID_NEXT_HEADER]

/-- C3 witness: the spec's three test vectors — ports 80/80 give one single
component and no range; 0/65535 give no remote-port component; 1000/2000 give
one range component — together with the same checks on the local side. -/
theorem tft_port_component_selection_witness :
    ((pf_components ByteOrder.little
        ⟨0, 0, 0, 0, 0, 0, 0, 0, 80, 80, 80, 80⟩).countP
        (fun c => c.1 == SINGLE_REMOTE_PORT) = 1 ∧
      (pf_components ByteOrder.little
        ⟨0, 0, 0, 0, 0, 0, 0, 0, 80, 80, 80, 80⟩).countP
        (fun c => c.1 == REMOTE_PORT_RANGE) = 0) ∧
    ((pf_components ByteOrder.little
        ⟨0, 0, 0, 0, 0, 0, 0, 0, 0, 65535, 80, 80⟩).countP
        (fun c => c.1 == SINGLE_REMOTE_PORT) = 0 ∧
      (pf_components ByteOrder.little
        ⟨0, 0, 0, 0, 0, 0, 0, 0, 0, 65535, 80, 80⟩).countP
        (fun c => c.1 == REMOTE_PORT_RANGE) = 0) ∧
    ((pf_components ByteOrder.little
        ⟨0, 0, 0, 0, 0, 0, 0, 0, 1000, 2000, 80, 80⟩).countP
        (fun c => c.1 == SINGLE_REMOTE_PORT) = 0 ∧
      (pf_components ByteOrder.little
        ⟨0, 0, 0, 0, 0, 0, 0, 0, 1000, 2000, 80, 80⟩).countP
        (fun c => c.1 == REMOTE_PORT_RANGE) = 1) := by
  refine ⟨?_, ?_, ?_⟩
  · exact (tft_port_component_selection ByteOrder.little
      ⟨0, 0, 0, 0, 0, 0, 0, 0, 80, 80, 80, 80⟩).1 rfl
  · exact ((tft_port_component_selection ByteOrder.little
      ⟨0, 0, 0, 0, 0, 0, 0, 0, 0, 65535, 80, 80⟩).2.1) rfl rfl
  · exact ((tft_port_component_selection ByteOrder.little
      ⟨0, 0, 0, 0, 0, 0, 0, 0, 1000, 2000, 80, 80⟩).2.2.1) (by decide) (by decide)

/-! ### Claim C6: grouped-IE length accumulation -/

/-- C6. Opening a Bearer Context grouped IE with body length 0 and then
calling `add_grouped_ie_length` once with 12 and once with 20 leaves the
parent IE's length field holding exactly 32. -/
theorem grouped_length_accumulation (h : gtpv2c_header) (inst : Nat)
    (h1 : gtpv2c_header) (ie : Nat)
    (hok : create_bearer_context_ie h inst = .ok (h1, ie)) :
    ieLengthField (add_grouped_ie_length (add_grouped_ie_length h1 ie 12) ie 20) ie
      = 32 := by
  simp only [create_bearer_context_ie, set_next_ie] at hok
  by_cases hc : h.len + 0 + IE_HEADER_SIZE > MAX_GTPV2C_LENGTH
  · rw [if_pos hc] at hok
    simp at hok
  · rw [if_neg hc] at hok
    simp only [Except.ok.injEq, Prod.mk.injEq] at hok
    obtain ⟨hh1, hie⟩ := hok
    subst hh1
    subst hie
    simp only [ieLengthField, add_grouped_ie_length, applyWrites, writesAt,
      htonsBytes, writeByte]
    split_ifs <;> omega

/-- C6 witness: on a zeroed buffer with running length 8, the Bearer Context
IE opens at offset 8 and after adding children of 12 and 20 bytes its length
field reads 32. -/
theorem grouped_length_accumulation_witness :
    ieLengthField (add_grouped_ie_length (add_grouped_ie_length
        (okState (create_bearer_context_ie ⟨8, fun _ => 0⟩ 0)).1
        (okState (create_bearer_context_ie ⟨8, fun _ => 0⟩ 0)).2 12)
        (okState (create_bearer_context_ie ⟨8, fun _ => 0⟩ 0)).2 20)
      (okState (create_bearer_context_ie ⟨8, fun _ => 0⟩ 0)).2 = 32 :=
  grouped_length_accumulation ⟨8, fun _ => 0⟩ 0
    (okState (create_bearer_context_ie ⟨8, fun _ => 0⟩ 0)).1
    (okState (create_bearer_context_ie ⟨8, fun _ => 0⟩ 0)).2 rfl

/-! ### Claim C5: byte order of multi-byte fields -/

/-- C5 counterexample: on a little-endian host the 32-bit TEID `0x01020304`
is stored by plain assignment (the source applies no `htonl`), so the four
TEID bytes of the F-TEID IE read back as the TEID under a little-endian
interpretation and NOT under a big-endian one — refuting the claim that every
multi-byte field is stored in network byte order. -/
theorem teid_byte_order_counterexample :
    readBE32 (okState (set_ipv4_fteid_ie ByteOrder.little ⟨8, fun _ => 0⟩
        6 0 0 16909060)).1 13 ≠ 16909060 ∧
    readLE32 (okState (set_ipv4_fteid_ie ByteOrder.little ⟨8, fun _ => 0⟩
        6 0 0 16909060)).1 13 = 16909060 := by
  constructor
  · decide
  · decide

/-- C5 amended. The IE length fields are stored big-endian on every host
(they pass through `htons`): a completing `set_next_ie` or `set_ie_size`
leaves a length field that reads back as the body length under a big-endian
interpretation. The 32-bit TEID of the F-TEID IE and the TFT port values,
however, are copied by plain assignment with no byte-order conversion, so
their buffer bytes are exactly the host-order representation (`store32` /
`store16` of the host's byte order) — big-endian only on a big-endian host. -/
theorem byte_order_of_fields (bo : ByteOrder) (h : gtpv2c_header)
    (ty inst n ie iface ipv4 teid : Nat) (pf : packet_filter)
    (h1 hs h2 : gtpv2c_header) (r : Nat) :
    (set_next_ie h ty inst n = .ok (h1, ie) → readBE16 h1 (ie + 2) = n) ∧
    (set_ie_size h ie n = .ok hs → readBE16 hs (ie + 2) = n) ∧
    (set_ipv4_fteid_ie bo h iface inst ipv4 teid = .ok (h2, r) →
      ∀ k, k < 4 → h2.buf (h.len + 5 + k) = (store32 bo teid).getD k 0) ∧
    (pf.remote_port_low = pf.remote_port_high →
      (SINGLE_REMOTE_PORT, store16 bo pf.remote_port_low) ∈ pf_components bo pf) := by
  refine ⟨?_, ?_, ?_, ?_⟩
  · intro hok
    simp only [set_next_ie] at hok
    by_cases hc : h.len + n + IE_HEADER_SIZE > MAX_GTPV2C_LENGTH
    · rw [if_pos hc] at hok
      simp at hok
    · rw [if_neg hc] at hok
      simp only [Except.ok.injEq, Prod.mk.injEq] at hok
      obtain ⟨hh1, hie⟩ := hok
      subst hh1
      subst hie
      simp only [readBE16, applyWrites, writesAt, htonsBytes, writeByte,
        MAX_GTPV2C_LENGTH, IE_HEADER_SIZE] at hc ⊢
      split_ifs <;> omega
  · intro hok
    simp only [set_ie_size] at hok
    by_cases hc : h.len + n + IE_HEADER_SIZE > MAX_GTPV2C_LENGTH
    · rw [if_pos hc] at hok
      simp at hok
    · rw [if_neg hc] at hok
      simp only [Except.ok.injEq] at hok
      subst hok
      simp only [readBE16, applyWrites, writesAt, htonsBytes, writeByte,
        MAX_GTPV2C_LENGTH, IE_HEADER_SIZE] at hc ⊢
      split_ifs <;> omega
  · intro hok
    simp only [set_ipv4_fteid_ie, set_next_ie] at hok
    by_cases hc : h.len + 9 + IE_HEADER_SIZE > MAX_GTPV2C_LENGTH
    · rw [if_pos hc] at hok
      simp at hok
    · rw [if_neg hc] at hok
      simp only [Except.ok.injEq, Prod.mk.injEq] at hok
      obtain ⟨hh2, hr⟩ := hok
      subst hh2
      intro k hk
      simp only [applyWrites]
      rw [applyWrites_append]
      rw [applyWrites_not_mem _ _ _ (by
        rw [writesAt_map_fst]
        simp only [store32_length, List.mem_range'_1]
        omega)]
      rw [applyWrites_writesAt_read _ _ _ _ (by rw [store32_length]; omega)]
      cases bo <;> interval_cases k <;> simp [store32, List.getD] <;> omega
  · intro hEq
    unfold pf_components
    rw [if_pos hEq]
    simp

/-- C5 amended witness: `set_next_ie` with body length `0x0102` stores the
length bytes big-endian; on a little-endian host `set_ipv4_fteid_ie` stores
TEID `0x01020304` as its little-endian bytes; a single-port filter carries its
port as a host-order `store16`. -/
theorem byte_order_of_fields_witness :
    readBE16 (okState (set_next_ie ⟨8, fun _ => 0⟩ 87 0 258)).1
      ((okState (set_next_ie ⟨8, fun _ => 0⟩ 87 0 258)).2 + 2) = 258 ∧
    (okState (set_ipv4_fteid_ie ByteOrder.little ⟨8, fun _ => 0⟩ 6 0 0 16909060)).1.buf
      (8 + 5 + 0) = (store32 ByteOrder.little 16909060).getD 0 0 ∧
    (SINGLE_REMOTE_PORT, store16 ByteOrder.little 80) ∈
      pf_components ByteOrder.little ⟨0, 0, 0, 0, 0, 0, 0, 0, 80, 80, 1, 2⟩ := by
  refine ⟨?_, ?_, ?_⟩
  · exact (byte_order_of_fields ByteOrder.little ⟨8, fun _ => 0⟩ 87 0 258
      (okState (set_next_ie ⟨8, fun _ => 0⟩ 87 0 258)).2 6 0 16909060
      ⟨0, 0, 0, 0, 0, 0, 0, 0, 80, 80, 1, 2⟩
      (okState (set_next_ie ⟨8, fun _ => 0⟩ 87 0 258)).1
      ⟨0, fun _ => 0⟩ ⟨0, fun _ => 0⟩ 0).1 rfl
  · exact (byte_order_of_fields ByteOrder.little ⟨8, fun _ => 0⟩ 87 0 258 0 6 0
      16909060 ⟨0, 0, 0, 0, 0, 0, 0, 0, 80, 80, 1, 2⟩
      ⟨0, fun _ => 0⟩ ⟨0, fun _ => 0⟩
      (okState (set_ipv4_fteid_ie ByteOrder.little ⟨8, fun _ => 0⟩ 6 0 0 16909060)).1
      (okState (set_ipv4_fteid_ie ByteOrder.little ⟨8, fun _ => 0⟩ 6 0 0 16909060)).2).2.2.1
      rfl 0 (by omega)
  · exact (byte_order_of_fields ByteOrder.little ⟨8, fun _ => 0⟩ 87 0 258 0 6 0
      16909060 ⟨0, 0, 0, 0, 0, 0, 0, 0, 80, 80, 1, 2⟩
      ⟨0, fun _ => 0⟩ ⟨0, fun _ => 0⟩ ⟨0, fun _ => 0⟩ 0).2.2.2 rfl

/-! ### Claim C8: sparse filter table, slots 0 and 3 -/

theorem tftRun_two_slots (bo : ByteOrder) (lookup : Int → Option packet_filter)
    (k0 k3 : Int) (pf0 pf3 : packet_filter) (start : Nat)
    (hk0 : k0 ≠ NO_ENTRY) (hk3 : k3 ≠ NO_ENTRY)
    (hl0 : lookup k0 = some pf0) (hl3 : lookup k3 = some pf3) :
    tftRun bo lookup (fun i => if i = 0 then k0 else if i = 3 then k3 else NO_ENTRY)
        start =
      { num := 2,
        pos := start + 3 + componentsLength (pf_components bo pf0) + 3 +
          componentsLength (pf_components bo pf3),
        ie_len := componentsLength (pf_components bo pf0) + 3 +
          componentsLength (pf_components bo pf3) + 3,
        ws := filterWrites bo 0 start pf0 ++
          filterWrites bo 3 (start + 3 + componentsLength (pf_components bo pf0)) pf3 } := by
  have hr : List.range MAX_FILTERS_PER_UE =
      [0, 1, 2, 3, 4, 5, 6, 7, 8, 9, 10, 11, 12, 13, 14, 15] := rfl
  unfold tftRun
  rw [hr]
  simp only [List.foldl_cons, List.foldl_nil]
  simp [tftStep, hk0, hk3, hl0, hl3]

/-- C8. For a bearer whose packet-filter table is non-empty exactly at slots 0
and 3 and whose two indices both resolve, a completing `set_bearer_tft_ie`
leaves: the TFT sub-header with `num_pkt_filters = 2` (its low nibble); the
first filter sub-record immediately after the sub-header carrying filter id 0;
and the second sub-record contiguously after the first one's full extent
(3 header bytes plus its components) carrying filter id 3 — ascending slot
order. -/
theorem sparse_filter_table (bo : ByteOrder) (h : gtpv2c_header) (inst : Nat)
    (k0 k3 : Int) (pf0 pf3 : packet_filter) (lookup : Int → Option packet_filter)
    (hk0 : k0 ≠ NO_ENTRY) (hk3 : k3 ≠ NO_ENTRY)
    (hl0 : lookup k0 = some pf0) (hl3 : lookup k3 = some pf3)
    (h2 : gtpv2c_header) (r : Nat)
    (hok : set_bearer_tft_ie bo h inst
        ⟨fun i => if i = 0 then k0 else if i = 3 then k3 else NO_ENTRY⟩ lookup
        = .ok (h2, r)) :
    h2.buf (h.len + 4) % 16 = 2 ∧
    h2.buf (h.len + 5) % 16 = 0 ∧
    h2.buf (h.len + 5 + 3 + componentsLength (pf_components bo pf0)) % 16 = 3 := by
  have hst := tftRun_two_slots bo lookup k0 k3 pf0 pf3 (h.len + 5) hk0 hk3 hl0 hl3
  simp only [set_bearer_tft_ie, tft_mutated, set_next_unsized_ie, set_ie_size] at hok
  rw [hst] at hok
  set clen0 := componentsLength (pf_components bo pf0) with hclen0
  set clen3 := componentsLength (pf_components bo pf3) with hclen3
  by_cases hcond : h.len + (1 + (clen0 + 3 + clen3 + 3)) + IE_HEADER_SIZE >
      MAX_GTPV2C_LENGTH
  · rw [if_pos hcond] at hok
    simp at hok
  · rw [if_neg hcond] at hok
    simp only [Except.ok.injEq, Prod.mk.injEq] at hok
    obtain ⟨hh2, hr2⟩ := hok
    subst hh2
    dsimp only
    have hclose : ∀ o : Nat, h.len + 4 ≤ o →
        o ∉ (writesAt (h.len + 2)
          (htonsBytes (1 + (clen0 + 3 + clen3 + 3)))).map Prod.fst := by
      intro o ho hmem
      rw [writesAt_map_fst] at hmem
      simp only [htonsBytes, List.length_cons, List.length_nil,
        List.mem_range'_1] at hmem
      omega
    refine ⟨?_, ?_, ?_⟩
    · rw [applyWrites_not_mem _ _ _ (hclose _ (by omega))]
      rw [applyWrites_cons_self _ _ _ _ (by
        simp only [List.map_append, List.mem_append, filterWrites_fst_mem,
          ← hclen0, ← hclen3]
        omega)]
    · rw [applyWrites_not_mem _ _ _ (hclose _ (by omega))]
      rw [applyWrites_cons_ne _ _ _ _ _ (by omega)]
      rw [applyWrites_append]
      rw [applyWrites_not_mem _ _ _ (by
        simp only [filterWrites_fst_mem]
        omega)]
      simp only [filterWrites]
      rw [applyWrites_cons_self _ _ _ _ (by
        simp only [List.map_cons, List.mem_cons, writesAt_map_fst,
          componentsBytes_length, List.mem_range'_1]
        omega)]
      omega
    · rw [applyWrites_not_mem _ _ _ (hclose _ (by omega))]
      rw [applyWrites_cons_ne _ _ _ _ _ (by omega)]
      rw [applyWrites_append]
      simp only [filterWrites]
      rw [applyWrites_cons_self _ _ _ _ (by
        simp only [List.map_cons, List.mem_cons, writesAt_map_fst,
          componentsBytes_length, List.mem_range'_1]
        omega)]
      omega

/-- C8 witness: slots 0 and 3 hold store indices 1 and 2 resolving to two
concrete filters; the encode completes and the three bytes read back 2, 0
and 3. -/
theorem sparse_filter_table_witness :
    (okState (set_bearer_tft_ie ByteOrder.little ⟨8, fun _ => 0⟩ 0
        ⟨fun i => if i = 0 then 1 else if i = 3 then 2 else NO_ENTRY⟩
        (fun k => if k = 1 then some ⟨0, 10, 0, 0, 0, 0, 0, 0, 80, 80, 0, 65535⟩
          else if k = 2 then some ⟨1, 20, 0, 0, 0, 0, 6, 1, 1000, 2000, 5, 5⟩
          else none))).1.buf (8 + 4) % 16 = 2 ∧
    (okState (set_bearer_tft_ie ByteOrder.little ⟨8, fun _ => 0⟩ 0
        ⟨fun i => if i = 0 then 1 else if i = 3 then 2 else NO_ENTRY⟩
        (fun k => if k = 1 then some ⟨0, 10, 0, 0, 0, 0, 0, 0, 80, 80, 0, 65535⟩
          else if k = 2 then some ⟨1, 20, 0, 0, 0, 0, 6, 1, 1000, 2000, 5, 5⟩
          else none))).1.buf (8 + 5) % 16 = 0 ∧
    (okState (set_bearer_tft_ie ByteOrder.little ⟨8, fun _ => 0⟩ 0
        ⟨fun i => if i = 0 then 1 else if i = 3 then 2 else NO_ENTRY⟩
        (fun k => if k = 1 then some ⟨0, 10, 0, 0, 0, 0, 0, 0, 80, 80, 0, 65535⟩
          else if k = 2 then some ⟨1, 20, 0, 0, 0, 0, 6, 1, 1000, 2000, 5, 5⟩
          else none))).1.buf (8 + 5 + 3 + componentsLength (pf_components
            ByteOrder.little ⟨0, 10, 0, 0, 0, 0, 0, 0, 80, 80, 0, 65535⟩)) % 16
      = 3 := by
  exact sparse_filter_table ByteOrder.little ⟨8, fun _ => 0⟩ 0 1 2
    ⟨0, 10, 0, 0, 0, 0, 0, 0, 80, 80, 0, 65535⟩
    ⟨1, 20, 0, 0, 0, 0, 6, 1, 1000, 2000, 5, 5⟩
    (fun k => if k = 1 then some ⟨0, 10, 0, 0, 0, 0, 0, 0, 80, 80, 0, 65535⟩
      else if k = 2 then some ⟨1, 20, 0, 0, 0, 0, 6, 1, 1000, 2000, 5, 5⟩
      else none)
    (by decide) (by decide) (by decide) (by decide)
    (okState (set_bearer_tft_ie ByteOrder.little ⟨8, fun _ => 0⟩ 0
        ⟨fun i => if i = 0 then 1 else if i = 3 then 2 else NO_ENTRY⟩
        (fun k => if k = 1 then some ⟨0, 10, 0, 0, 0, 0, 0, 0, 80, 80, 0, 65535⟩
          else if k = 2 then some ⟨1, 20, 0, 0, 0, 0, 6, 1, 1000, 2000, 5, 5⟩
          else none))).1
    (okState (set_bearer_tft_ie ByteOrder.little ⟨8, fun _ => 0⟩ 0
        ⟨fun i => if i = 0 then 1 else if i = 3 then 2 else NO_ENTRY⟩
        (fun k => if k = 1 then some ⟨0, 10, 0, 0, 0, 0, 0, 0, 80, 80, 0, 65535⟩
          else if k = 2 then some ⟨1, 20, 0, 0, 0, 0, 6, 1, 1000, 2000, 5, 5⟩
          else none))).2
    rfl

/-! ### Claim C10: the TFT body is written before the only capacity check -/

/-- C10. `set_bearer_tft_ie` performs no capacity check while producing its
variable body; the only check is the one in `set_ie_size` at close time. When
that check fires, the process state at the panic is `tft_mutated` — the buffer
with the IE header bytes, the TFT sub-header and every filter sub-record
already applied, and the running length untouched — and the body writes
already performed include a write at offset `h.len + 4 + ie_length`, which
lies at or beyond `MAX_GTPV2C_LENGTH`: the buffer is not unchanged on this
error. When the check passes, the call completes. -/
theorem tft_body_written_before_check (bo : ByteOrder) (h : gtpv2c_header)
    (inst : Nat) (bearer : eps_bearer) (lookup : Int → Option packet_filter) :
    (h.len + (1 + (tftRun bo lookup bearer.packet_filter_map (h.len + 5)).ie_len)
        + IE_HEADER_SIZE > MAX_GTPV2C_LENGTH →
      set_bearer_tft_ie bo h inst bearer lookup =
        .error (tft_mutated bo h inst bearer lookup) ∧
      (tft_mutated bo h inst bearer lookup).len = h.len ∧
      MAX_GTPV2C_LENGTH ≤
        h.len + 4 + (tftRun bo lookup bearer.packet_filter_map (h.len + 5)).ie_len ∧
      (h.len + 4 + (tftRun bo lookup bearer.packet_filter_map (h.len + 5)).ie_len) ∈
        ((h.len + 4,
          32 + (tftRun bo lookup bearer.packet_filter_map (h.len + 5)).num % 16)
          :: (tftRun bo lookup bearer.packet_filter_map (h.len + 5)).ws).map
          Prod.fst) ∧
    (¬ (h.len + (1 + (tftRun bo lookup bearer.packet_filter_map (h.len + 5)).ie_len)
        + IE_HEADER_SIZE > MAX_GTPV2C_LENGTH) →
      completes (set_bearer_tft_ie bo h inst bearer lookup) = true) := by
  have hlen : (tft_mutated bo h inst bearer lookup).len = h.len := rfl
  constructor
  · intro hcond
    refine ⟨?_, hlen, ?_, ?_⟩
    · simp only [set_bearer_tft_ie, set_ie_size]
      rw [if_pos (by rw [hlen]; exact hcond)]
    · simp only [MAX_GTPV2C_LENGTH, IE_HEADER_SIZE] at hcond ⊢
      omega
    · have hinv := tftRun_inv bo lookup bearer.packet_filter_map (h.len + 5)
      by_cases hie :
          (tftRun bo lookup bearer.packet_filter_map (h.len + 5)).ie_len = 0
      · simp [hie]
      · simp only [List.map_cons, List.mem_cons]
        right
        rw [(hinv.2 _)]
        omega
  · intro hcond
    simp only [set_bearer_tft_ie, set_ie_size]
    rw [if_neg (by rw [hlen]; exact hcond)]
    rfl

/-- C10 witness: with the running length already at 4080, encoding a TFT for
a bearer with no filters needs 1 + 4 more bytes and panics, leaving the
mutated buffer with its sub-header byte written at offset 4084 =
`MAX_GTPV2C_LENGTH`; from a running length of 8 the same call completes. -/
theorem tft_body_written_before_check_witness :
    (set_bearer_tft_ie ByteOrder.little ⟨4080, fun _ => 0⟩ 0 ⟨fun _ => NO_ENTRY⟩
        (fun _ => none) =
      .error (tft_mutated ByteOrder.little ⟨4080, fun _ => 0⟩ 0 ⟨fun _ => NO_ENTRY⟩
        (fun _ => none)) ∧
      (tft_mutated ByteOrder.little ⟨4080, fun _ => 0⟩ 0 ⟨fun _ => NO_ENTRY⟩
        (fun _ => none)).len = 4080 ∧
      MAX_GTPV2C_LENGTH ≤ 4080 + 4 +
        (tftRun ByteOrder.little (fun _ => none)
          (eps_bearer.packet_filter_map ⟨fun _ => NO_ENTRY⟩) (4080 + 5)).ie_len ∧
      (4080 + 4 +
        (tftRun ByteOrder.little (fun _ => none)
          (eps_bearer.packet_filter_map ⟨fun _ => NO_ENTRY⟩) (4080 + 5)).ie_len) ∈
        ((4080 + 4,
          32 + (tftRun ByteOrder.little (fun _ => none)
            (eps_bearer.packet_filter_map ⟨fun _ => NO_ENTRY⟩) (4080 + 5)).num % 16)
          :: (tftRun ByteOrder.little (fun _ => none)
            (eps_bearer.packet_filter_map ⟨fun _ => NO_ENTRY⟩) (4080 + 5)).ws).map
          Prod.fst) ∧
    completes (set_bearer_tft_ie ByteOrder.little ⟨8, fun _ => 0⟩ 0
      ⟨fun _ => NO_ENTRY⟩ (fun _ => none)) = true := by
  constructor
  · exact (tft_body_written_before_check ByteOrder.little ⟨4080, fun _ => 0⟩ 0
      ⟨fun _ => NO_ENTRY⟩ (fun _ => none)).1 (by decide)
  · exact (tft_body_written_before_check ByteOrder.little ⟨8, fun _ => 0⟩ 0
      ⟨fun _ => NO_ENTRY⟩ (fun _ => none)).2 (by decide)

/-- C9 witness: EBI `0x1F = 31` on a zeroed buffer with running length 8:
the warning fires, the call completes, the body byte at offset 12 is 31. -/
theorem ebi_anomaly_witness :
    (set_ebi_ie ⟨8, fun _ => 0⟩ 0 31).1 = true ∧
    completes (set_ebi_ie ⟨8, fun _ => 0⟩ 0 31).2 = true ∧
    (okState (set_ebi_ie ⟨8, fun _ => 0⟩ 0 31).2).1.buf 12 = 31 ∧
    (okState (set_ebi_ie ⟨8, fun _ => 0⟩ 0 31).2).2 = 5 := by
  have h := ebi_anomaly ⟨8, fun _ => 0⟩ 0 31 (by decide) (by decide)
  exact ⟨h.1, h.2.1, h.2.2.1, h.2.2.2⟩
